import Mathlib

/-!
Verification of the crypto-exchange swap widget (src/components/crypto-exchange.tsx
and src/utils/input-validation.ts).

Modelling conventions:
* JavaScript numbers are modelled as exact rationals (ℚ).  All constants in the
  source are decimal literals, and every claim is about decimal inputs and
  decimal-formatted outputs, where the rational model and IEEE doubles agree on
  the concrete values appearing in the claims.
* `Number.parseFloat` is modelled on finite decimal notation (optional sign,
  digits, decimal point, exponent, longest-valid-prefix semantics); the result
  NaN is `none`.  The special literal `Infinity` is outside the rational model.
* `Number.prototype.toFixed` is modelled for values below the 10^21 threshold at
  which JavaScript switches to exponential notation: the nearest multiple of
  10^-f, ties towards the larger value, printed with exactly f fraction digits.
* React state plus the two mutable refs of the component are collected in one
  `ExchangeState` record; each event handler becomes a pure state transformer.
  `Math.random()` becomes an explicit parameter `u` (the raw sample in [0,1)).
  The 500 ms timer that clears a shake flag again is real time and is not
  modelled: a shake flag, once set, stays set in the model.
-/

namespace CryptoExchange

/-- Keys of the currency table, `type CurrencyKey = keyof typeof CURRENCIES`. -/
inductive CurrencyKey where
  | ETH
  | USDT
deriving DecidableEq

export CurrencyKey (ETH USDT)

/-- Per-currency configuration record (the icon path is presentational and
omitted). -/
structure CurrencyInfo where
  name : String
  symbol : String
  balance : ℚ
  precision : ℕ
deriving DecidableEq

/-- The `CURRENCIES` table of crypto-exchange.tsx (lines 13-28). -/
def CURRENCIES : CurrencyKey → CurrencyInfo
  | ETH => ⟨"Ethereum", "ETH", 2.98, 4⟩
  | USDT => ⟨"USDT", "USDT", 10000, 2⟩

/-- `RATES.ETH_TO_USDT` (crypto-exchange.tsx line 32). -/
def RATES_ETH_TO_USDT : ℚ := 2184.33

/-- `RATES.USDT_TO_ETH = 1 / 2184.33` (crypto-exchange.tsx line 33). -/
def RATES_USDT_TO_ETH : ℚ := 1 / 2184.33

/-! ## Decimal digits: values, rendering, and read-back -/

/-- Numeric value of a decimal digit character. -/
def digitVal (c : Char) : ℕ := c.toNat - 48

/-- Character of a decimal digit value below ten. -/
def digitChar (d : ℕ) : Char := Char.ofNat (48 + d)

/-- Value of a big-endian list of decimal digit characters. -/
def digitsVal (l : List Char) : ℕ :=
  l.foldl (fun a c => 10 * a + digitVal c) 0

/-- Fuel-driven decimal rendering of a natural number (most significant digit
first); `fuel` bounds the recursion depth. -/
def natDigitsAux : ℕ → ℕ → List Char
  | 0, _ => []
  | fuel + 1, n =>
    if n < 10 then [digitChar n]
    else natDigitsAux fuel (n / 10) ++ [digitChar (n % 10)]

/-- Decimal digit string of a natural number. -/
def natDigits (n : ℕ) : List Char := natDigitsAux (n + 1) n

/-- Exactly `f` decimal digits holding the value `r` (for `r < 10 ^ f`),
left-padded with zeros: the fraction part of a fixed-point rendering. -/
def fracDigits : ℕ → ℕ → List Char
  | 0, _ => []
  | f + 1, r => fracDigits f (r / 10) ++ [digitChar (r % 10)]

/-- Digit list of the fixed-point rendering of a natural number scaled by
`10 ^ f`: integer digits, then a point and exactly `f` fraction digits. -/
def fixedDigits (m : ℕ) (f : ℕ) : List Char :=
  if f = 0 then natDigits m
  else natDigits (m / 10 ^ f) ++ '.' :: fracDigits f (m % 10 ^ f)

/-- Fixed-point rendering of a scaled integer `n` (the value `n / 10 ^ f`). -/
def renderFixedInt (n : ℤ) (f : ℕ) : String :=
  if n < 0 then String.mk ('-' :: fixedDigits n.natAbs f)
  else String.mk (fixedDigits n.toNat f)

/-- `Math.round`: the nearest integer, ties towards positive infinity
(`Rat.floor` is used rather than `⌊⌋` to keep the definition kernel-reducible;
`ratFloor_eq` identifies the two). -/
def jsRound (q : ℚ) : ℤ := Rat.floor (q + 1 / 2)

/-- `x.toFixed(f)`: the multiple of `10 ^ (-f)` nearest to `x` (ties towards
the larger value), rendered with exactly `f` fraction digits. -/
def jsToFixed (x : ℚ) (f : ℕ) : String := renderFixedInt (Rat.floor (x * 10 ^ f + 1 / 2)) f

/-- Modelled from the spec: the claim's "formatted (truncating) to the target
asset's fixed decimal precision" — keep `f` fraction digits of the value and
drop the rest (for the non-negative amounts at issue, flooring the scaled
value), to be compared with what the source's `toFixed` actually does. -/
def specTruncFixed (x : ℚ) (f : ℕ) : String := renderFixedInt (Rat.floor (x * 10 ^ f)) f

/-! ## A rational model of `Number.parseFloat` -/

/-- White-space characters skipped by `parseFloat` (space, tab, line feed,
vertical tab, form feed, carriage return). -/
def isJsWs (c : Char) : Bool :=
  c = ' ' || c.toNat = 9 || c.toNat = 10 || c.toNat = 11 || c.toNat = 12 || c.toNat = 13

/-- Fraction digits of a decimal literal: the digits after a leading point,
together with the unconsumed remainder. -/
def parseFrac (l : List Char) : List Char × List Char :=
  match l with
  | [] => ([], [])
  | c :: r =>
    if c = '.' then (r.takeWhile Char.isDigit, r.dropWhile Char.isDigit)
    else ([], c :: r)

/-- Scale factor contributed by an optionally signed exponent digit string. -/
def parseExpSigned (l : List Char) : ℚ :=
  match l with
  | [] => 1
  | c :: r =>
    if c = '-' then 1 / 10 ^ digitsVal (r.takeWhile Char.isDigit)
    else if c = '+' then 10 ^ digitsVal (r.takeWhile Char.isDigit)
    else 10 ^ digitsVal ((c :: r).takeWhile Char.isDigit)

/-- Scale factor contributed by an optional exponent part (`e` or `E`). -/
def parseExpQ (l : List Char) : ℚ :=
  match l with
  | [] => 1
  | c :: r => if c = 'e' ∨ c = 'E' then parseExpSigned r else 1

/-- Unsigned decimal literal at the head of the character list: integer
digits, optional point and fraction digits, optional exponent.  `none` when no
digit is present (parseFloat returns NaN). -/
def parseUnsigned (l : List Char) : Option ℚ :=
  let a := l.takeWhile Char.isDigit
  let l2 := l.dropWhile Char.isDigit
  let b := (parseFrac l2).1
  let l3 := (parseFrac l2).2
  if a = [] ∧ b = [] then none
  else some (((digitsVal a : ℚ) + (digitsVal b : ℚ) / 10 ^ b.length) * parseExpQ l3)

/-- Optionally signed decimal literal at the head of the character list. -/
def parseSigned (l : List Char) : Option ℚ :=
  match l with
  | [] => parseUnsigned []
  | c :: r =>
    if c = '-' then (parseUnsigned r).map (fun q => -q)
    else if c = '+' then parseUnsigned r
    else parseUnsigned (c :: r)

/-- Model of `Number.parseFloat` restricted to finite decimal notation: skip
leading white space, then read the longest optionally signed decimal literal;
`none` models NaN. -/
def jsParseFloat (s : String) : Option ℚ := parseSigned (s.data.dropWhile isJsWs)

/-! ## input-validation.ts -/

/-- `ERROR_MESSAGES.NUMBERS_ONLY` (input-validation.ts line 26). -/
def NUMBERS_ONLY : String := "Please enter numbers only"

/-- `ERROR_MESSAGES.INSUFFICIENT_ETH` (input-validation.ts line 27). -/
def INSUFFICIENT_ETH : String := "Insufficient ETH balance"

/-- `ERROR_MESSAGES.INSUFFICIENT_USDT` (input-validation.ts line 28). -/
def INSUFFICIENT_USDT : String := "Insufficient USDT balance"

/-- Acceptance of the regular expression `^\d*\.?\d*$`: leading digits, then
optionally a point followed by digits only. -/
def matchNumRegex : List Char → Bool
  | [] => true
  | c :: cs =>
    if c.isDigit then matchNumRegex cs
    else if c = '.' then cs.all Char.isDigit
    else false

/-- `isNumericInput` (input-validation.ts lines 6-11): the empty string, or a
match of `^\d*\.?\d*$`. -/
def isNumericInput (value : String) : Bool :=
  if value = "" then true else matchNumRegex value.data

/-- `isWithinBalance` (input-validation.ts lines 19-23): the empty string is
fine; otherwise the parsed value must be a number, at most `maxBalance`, and
positive. -/
def isWithinBalance (amount : String) (maxBalance : ℚ) : Bool :=
  if amount = "" then true
  else
    match jsParseFloat amount with
    | none => false
    | some numValue => decide (numValue ≤ maxBalance ∧ 0 < numValue)

/-! ## Pure helpers of crypto-exchange.tsx -/

/-- `calculateTransactionMinutes` (crypto-exchange.tsx lines 41-55) with the
`Math.random()` sample `u` made explicit: round `(10 + 0.05 * value)` scaled
by `0.7 + 0.6 * u` and clamp the result between 5 and 30 minutes. -/
def calculateTransactionMinutes (value : ℚ) (u : ℚ) : ℤ :=
  let baseTime : ℚ := 10
  let scaleFactor : ℚ := 0.05
  let valueEffect := value * scaleFactor
  let randomFactor := 0.7 + u * 0.6
  max 5 (min 30 (jsRound ((baseTime + valueEffect) * randomFactor)))

/-- `calculateExchangeAmount` (crypto-exchange.tsx lines 109-128): empty input
gives an empty result, unparseable input gives an empty result, and otherwise
the parsed amount times the direction's rate is formatted with `toFixed` at
the target currency's precision. -/
def calculateExchangeAmount (amount : String)
    (fromCurrency toCurrency : CurrencyKey) : String :=
  if amount = "" then ""
  else
    match jsParseFloat amount with
    | none => ""
    | some numAmount =>
      let rate :=
        if fromCurrency = ETH ∧ toCurrency = USDT then RATES_ETH_TO_USDT
        else if fromCurrency = USDT ∧ toCurrency = ETH then RATES_USDT_TO_ETH
        else 1
      jsToFixed (numAmount * rate) (CURRENCIES toCurrency).precision

/-- `validateAmount` (crypto-exchange.tsx lines 131-139): a format failure is
the numbers-only error; a non-empty amount outside the currency's balance is
the currency's insufficiency error; otherwise no error. -/
def validateAmount (amount : String) (currency : CurrencyKey) : String :=
  if ¬ isNumericInput amount then NUMBERS_ONLY
  else if amount ≠ "" ∧ ¬ isWithinBalance amount (CURRENCIES currency).balance then
    if currency = ETH then INSUFFICIENT_ETH else INSUFFICIENT_USDT
  else ""

/-! ## The exchange form controller -/

/-- React state of the `CryptoExchange` component together with its two
mutable error refs (crypto-exchange.tsx lines 75-95).  The focus state and the
input element ref are purely presentational and are not modelled; the
transaction minutes are `Option ℤ`, `none` standing for NaN (reachable in the
source when a stored amount parses to NaN and propagates through
`Math.max`/`Math.round`). -/
structure ExchangeState where
  sendAmount : String
  receiveAmount : String
  sendCurrency : CurrencyKey
  receiveCurrency : CurrencyKey
  sendError : String
  receiveError : String
  transactionMinutes : Option ℤ
  isLoading : Bool
  isSuccess : Bool
  sendErrorCount : ℕ
  receiveErrorCount : ℕ
  shakeSendError : Bool
  shakeReceiveError : Bool
  prevSendError : String
  prevReceiveError : String
deriving DecidableEq

/-- Initial component state (crypto-exchange.tsx lines 75-95). -/
def initState : ExchangeState where
  sendAmount := "1.00"
  receiveAmount := "2184.33"
  sendCurrency := ETH
  receiveCurrency := USDT
  sendError := ""
  receiveError := ""
  transactionMinutes := some 15
  isLoading := false
  isSuccess := false
  sendErrorCount := 0
  receiveErrorCount := 0
  shakeSendError := false
  shakeReceiveError := false
  prevSendError := ""
  prevReceiveError := ""

/-- `value.replace(/,/g, '')`: strip every comma (the thousands separators
inserted by the display formatting). -/
def stripCommas (value : String) : String :=
  String.mk (value.data.filter (fun c => c ≠ ','))

/-- USD equivalent of one field as computed inside `updateTransactionMinutes`
(crypto-exchange.tsx lines 143-149): parse the value (defaulting the empty
string to "0"), and convert through the ETH price unless the field's currency
is already USDT.  `none` models NaN. -/
def usdValue (v : String) (currency : CurrencyKey) : Option ℚ :=
  (jsParseFloat (if v = "" then "0" else v)).map
    (fun q => if currency = USDT then q else q * RATES_ETH_TO_USDT)

/-- `updateTransactionMinutes` (crypto-exchange.tsx lines 142-153): the new
transaction-minutes value for the given field values.  The currencies are the
ones captured by the handler's closure, so callers pass the pre-update state's
currencies.  `Math.max` and `Math.round` propagate NaN (`none`). -/
def updateTxMinutes (sendVal receiveVal : String) (sc rc : CurrencyKey) (u : ℚ) : Option ℤ :=
  match usdValue sendVal sc, usdValue receiveVal rc with
  | some a, some b => some (calculateTransactionMinutes (max a b) u)
  | _, _ => none

/-- `handleSendAmountChange` (crypto-exchange.tsx lines 155-194) as a pure
state transformer; `input` is the raw `e.target.value` and `u` the
`Math.random()` sample used if the minutes are recomputed. -/
def handleSendAmountChange (input : String) (u : ℚ) (st : ExchangeState) : ExchangeState :=
  let rawValue := stripCommas input
  let error := validateAmount rawValue st.sendCurrency
  let same := error ≠ "" ∧ error = st.prevSendError
  let st1 : ExchangeState :=
    { st with
      sendErrorCount := if same then st.sendErrorCount + 1 else 0
      shakeSendError := if same ∧ 2 ≤ st.sendErrorCount then true else st.shakeSendError
      sendError := error
      prevSendError := error }
  if error ≠ NUMBERS_ONLY then
    let newReceiveAmount := calculateExchangeAmount rawValue st.sendCurrency st.receiveCurrency
    { st1 with
      sendAmount := rawValue
      receiveAmount := newReceiveAmount
      receiveError := ""
      prevReceiveError := ""
      receiveErrorCount := 0
      transactionMinutes :=
        updateTxMinutes rawValue newReceiveAmount st.sendCurrency st.receiveCurrency u }
  else st1

/-- `handleReceiveAmountChange` (crypto-exchange.tsx lines 196-264) as a pure
state transformer. -/
def handleReceiveAmountChange (input : String) (u : ℚ) (st : ExchangeState) : ExchangeState :=
  let rawValue := stripCommas input
  if ¬ isNumericInput rawValue then
    let same := NUMBERS_ONLY = st.prevReceiveError
    { st with
      receiveErrorCount := if same then st.receiveErrorCount + 1 else 0
      shakeReceiveError := if same ∧ 2 ≤ st.receiveErrorCount then true else st.shakeReceiveError
      receiveError := NUMBERS_ONLY
      prevReceiveError := NUMBERS_ONLY }
  else if rawValue ≠ "" then
    let calculatedSendAmount := calculateExchangeAmount rawValue st.receiveCurrency st.sendCurrency
    let sendError := validateAmount calculatedSendAmount st.sendCurrency
    let same := sendError ≠ "" ∧ sendError = st.prevSendError
    { st with
      receiveAmount := rawValue
      receiveError := ""
      prevReceiveError := ""
      receiveErrorCount := 0
      sendErrorCount := if same then st.sendErrorCount + 1 else 0
      shakeSendError := if same ∧ 2 ≤ st.sendErrorCount then true else st.shakeSendError
      sendError := sendError
      prevSendError := sendError
      sendAmount := calculatedSendAmount
      transactionMinutes :=
        updateTxMinutes calculatedSendAmount rawValue st.sendCurrency st.receiveCurrency u }
  else
    { st with
      receiveAmount := rawValue
      receiveError := ""
      prevReceiveError := ""
      receiveErrorCount := 0
      sendAmount := ""
      sendError := ""
      prevSendError := ""
      sendErrorCount := 0
      transactionMinutes := updateTxMinutes "0" "0" st.sendCurrency st.receiveCurrency u }

/-- `handleSwap` (crypto-exchange.tsx lines 266-291) as a pure state
transformer.  The closure of `updateTransactionMinutes` still holds the
pre-swap currencies, which is reflected in the minutes computation. -/
def handleSwap (u : ℚ) (st : ExchangeState) : ExchangeState :=
  if st.sendError = NUMBERS_ONLY ∨ st.receiveError = NUMBERS_ONLY then st
  else
    { st with
      sendAmount := st.receiveAmount
      receiveAmount := st.sendAmount
      sendCurrency := st.receiveCurrency
      receiveCurrency := st.sendCurrency
      sendError := validateAmount st.receiveAmount st.receiveCurrency
      receiveError := ""
      transactionMinutes :=
        updateTxMinutes st.receiveAmount st.sendAmount st.sendCurrency st.receiveCurrency u }

/-- `handleConfirm` (crypto-exchange.tsx lines 293-306): the synchronous part
only sets the loading flag; the scheduled completion is `confirmResolve`. -/
def handleConfirm (st : ExchangeState) : ExchangeState :=
  { st with isLoading := true }

/-- Completion callback of `handleConfirm`'s timeout (crypto-exchange.tsx
lines 297-305). -/
def confirmResolve (st : ExchangeState) : ExchangeState :=
  { st with isLoading := false, isSuccess := true }

/-- Click handler of the success panel's New Exchange button
(crypto-exchange.tsx lines 418-422). -/
def handleReset (st : ExchangeState) : ExchangeState :=
  { st with
    isSuccess := false
    sendAmount := "1.00"
    receiveAmount := calculateExchangeAmount "1.00" st.sendCurrency st.receiveCurrency }

/-- Enabled status of the confirm button: the negation of its `disabled` prop
`!!sendError || !!receiveError || isLoading` (crypto-exchange.tsx line 599). -/
def confirmEnabled (st : ExchangeState) : Bool :=
  ! (! st.sendError.isEmpty || ! st.receiveError.isEmpty || st.isLoading)

/-- One user-driven transition of the controller: an edit of either amount
field, a swap, starting or completing a confirmation, or the reset offered by
the success panel. -/
inductive Step : ExchangeState → ExchangeState → Prop where
  | editSend (input : String) (u : ℚ) (st : ExchangeState) :
      Step st (handleSendAmountChange input u st)
  | editReceive (input : String) (u : ℚ) (st : ExchangeState) :
      Step st (handleReceiveAmountChange input u st)
  | swap (u : ℚ) (st : ExchangeState) : Step st (handleSwap u st)
  | confirmStart (st : ExchangeState) : Step st (handleConfirm st)
  | confirmFinish (st : ExchangeState) : Step st (confirmResolve st)
  | reset (st : ExchangeState) : Step st (handleReset st)

/-- States reachable from the initial state by user-driven transitions. -/
inductive Reachable : ExchangeState → Prop where
  | init : Reachable initState
  | step {st st2 : ExchangeState} : Reachable st → Step st st2 → Reachable st2

/-! ## Auxiliary lemmas -/

theorem ratFloor_eq (q : ℚ) : Rat.floor q = ⌊q⌋ := by
  rw [Rat.floor_def', Rat.floor_def]

theorem digitChar_facts {d : ℕ} (h : d < 10) :
    (digitChar d).isDigit = true ∧ digitVal (digitChar d) = d ∧
    isJsWs (digitChar d) = false ∧ digitChar d ≠ '-' ∧ digitChar d ≠ '+' ∧
    digitChar d ≠ '.' := by
  interval_cases d <;> exact ⟨rfl, rfl, rfl, by decide, by decide, by decide⟩

theorem digitsVal_append_singleton (l : List Char) (c : Char) :
    digitsVal (l ++ [c]) = 10 * digitsVal l + digitVal c := by
  simp [digitsVal, List.foldl_append]

/-- Shape of every character produced by `natDigitsAux`, together with its
read-back value and non-emptiness, provided the fuel covers the input. -/
theorem natDigitsAux_spec (fuel : ℕ) :
    ∀ n : ℕ, n < fuel →
      digitsVal (natDigitsAux fuel n) = n ∧
      (∀ c ∈ natDigitsAux fuel n, ∃ d, d < 10 ∧ c = digitChar d) ∧
      natDigitsAux fuel n ≠ [] := by
  induction fuel with
  | zero => intro n hn; omega
  | succ fuel ih =>
    intro n hn
    by_cases h10 : n < 10
    · refine ⟨?_, ?_, by simp [natDigitsAux, h10]⟩
      · simp [natDigitsAux, h10, digitsVal, (digitChar_facts h10).2.1]
      · intro c hc
        simp [natDigitsAux, h10] at hc
        exact ⟨n, h10, hc⟩
    · have hdiv : n / 10 < fuel := by
        have h1 : n / 10 < n := Nat.div_lt_self (by omega) (by omega)
        omega
      obtain ⟨hval, hmem, _⟩ := ih (n / 10) hdiv
      have hmod : n % 10 < 10 := Nat.mod_lt _ (by omega)
      refine ⟨?_, ?_, by simp [natDigitsAux, h10]⟩
      · rw [show natDigitsAux (fuel + 1) n
              = natDigitsAux fuel (n / 10) ++ [digitChar (n % 10)] by
            simp [natDigitsAux, h10]]
        rw [digitsVal_append_singleton, hval, (digitChar_facts hmod).2.1]
        omega
      · intro c hc
        simp [natDigitsAux, h10] at hc
        rcases hc with hc | hc
        · exact hmem c hc
        · exact ⟨n % 10, hmod, hc⟩

theorem natDigits_spec (n : ℕ) :
    digitsVal (natDigits n) = n ∧
    (∀ c ∈ natDigits n, ∃ d, d < 10 ∧ c = digitChar d) ∧
    natDigits n ≠ [] :=
  natDigitsAux_spec (n + 1) n (by omega)

theorem fracDigits_spec (f : ℕ) :
    ∀ r : ℕ, r < 10 ^ f →
      digitsVal (fracDigits f r) = r ∧
      (∀ c ∈ fracDigits f r, ∃ d, d < 10 ∧ c = digitChar d) ∧
      (fracDigits f r).length = f := by
  induction f with
  | zero =>
    intro r hr
    interval_cases r
    exact ⟨rfl, by simp [fracDigits], rfl⟩
  | succ f ih =>
    intro r hr
    have hdiv : r / 10 < 10 ^ f := by
      apply Nat.div_lt_of_lt_mul
      rw [mul_comm]
      simpa [pow_succ] using hr
    obtain ⟨hval, hmem, hlen⟩ := ih (r / 10) hdiv
    have hmod : r % 10 < 10 := Nat.mod_lt _ (by omega)
    refine ⟨?_, ?_, ?_⟩
    · rw [show fracDigits (f + 1) r = fracDigits f (r / 10) ++ [digitChar (r % 10)] from rfl]
      rw [digitsVal_append_singleton, hval, (digitChar_facts hmod).2.1]
      omega
    · intro c hc
      rw [show fracDigits (f + 1) r = fracDigits f (r / 10) ++ [digitChar (r % 10)] from rfl] at hc
      simp at hc
      rcases hc with hc | hc
      · exact hmem c hc
      · exact ⟨r % 10, hmod, hc⟩
    · rw [show fracDigits (f + 1) r = fracDigits f (r / 10) ++ [digitChar (r % 10)] from rfl]
      simp [hlen]

theorem takeWhile_all_of (p : Char → Bool) (l : List Char)
    (hl : ∀ c ∈ l, p c = true) :
    l.takeWhile p = l ∧ l.dropWhile p = [] := by
  induction l with
  | nil => exact ⟨rfl, rfl⟩
  | cons c cs ih =>
    have hc := hl c (by simp)
    obtain ⟨ht, hd⟩ := ih (fun x hx => hl x (by simp [hx]))
    simp [List.takeWhile_cons, List.dropWhile_cons, hc, ht, hd]

theorem takeWhile_all_append (p : Char → Bool) (l r : List Char) (x : Char)
    (hl : ∀ c ∈ l, p c = true) (hx : p x = false) :
    (l ++ x :: r).takeWhile p = l ∧ (l ++ x :: r).dropWhile p = x :: r := by
  induction l with
  | nil => simp [List.takeWhile_cons, List.dropWhile_cons, hx]
  | cons c cs ih =>
    have hc := hl c (by simp)
    obtain ⟨ht, hd⟩ := ih (fun y hy => hl y (by simp [hy]))
    simp [List.takeWhile_cons, List.dropWhile_cons, hc, ht, hd]

theorem parseUnsigned_fixedDigits (m : ℕ) (f : ℕ) (hf : f ≠ 0) :
    parseUnsigned (fixedDigits m f) = some ((m : ℚ) / 10 ^ f) := by
  obtain ⟨hIval, hImem, hIne⟩ := natDigits_spec (m / 10 ^ f)
  have hFlt : m % 10 ^ f < 10 ^ f := Nat.mod_lt _ (by positivity)
  obtain ⟨hFval, hFmem, hFlen⟩ := fracDigits_spec f (m % 10 ^ f) hFlt
  have hIdig : ∀ c ∈ natDigits (m / 10 ^ f), c.isDigit = true := by
    intro c hc
    obtain ⟨d, hd, rfl⟩ := hImem c hc
    exact (digitChar_facts hd).1
  have hFdig : ∀ c ∈ fracDigits f (m % 10 ^ f), c.isDigit = true := by
    intro c hc
    obtain ⟨d, hd, rfl⟩ := hFmem c hc
    exact (digitChar_facts hd).1
  have hfd : fixedDigits m f
      = natDigits (m / 10 ^ f) ++ '.' :: fracDigits f (m % 10 ^ f) := by
    simp [fixedDigits, hf]
  obtain ⟨htw, hdw⟩ := takeWhile_all_append Char.isDigit
    (natDigits (m / 10 ^ f)) (fracDigits f (m % 10 ^ f)) '.' hIdig (by decide)
  obtain ⟨htw2, hdw2⟩ := takeWhile_all_of Char.isDigit _ hFdig
  rw [hfd]
  simp only [parseUnsigned, htw, hdw, parseFrac, if_true, htw2, hdw2]
  rw [if_neg (by simp [hIne])]
  simp only [parseExpQ, hIval, hFval, hFlen]
  have hten : ((10 : ℚ) ^ f) ≠ 0 := by positivity
  have hsplit : (m / 10 ^ f : ℕ) * 10 ^ f + m % 10 ^ f = m := by
    rw [mul_comm]
    exact Nat.div_add_mod m (10 ^ f)
  have key : ((m / 10 ^ f : ℕ) : ℚ) + ((m % 10 ^ f : ℕ) : ℚ) / 10 ^ f
      = (m : ℚ) / 10 ^ f := by
    rw [eq_div_iff hten, add_mul, div_mul_cancel₀ _ hten]
    exact_mod_cast hsplit
  rw [mul_one, key]

theorem string_mk_ne_empty (c : Char) (l : List Char) : String.mk (c :: l) ≠ "" := by
  intro h
  have := congrArg String.data h
  simp at this

theorem jsParseFloat_renderFixedInt (n : ℤ) (f : ℕ) (hn : 0 ≤ n) (hf : f ≠ 0) :
    jsParseFloat (renderFixedInt n f) = some ((n : ℚ) / 10 ^ f) := by
  rw [renderFixedInt, if_neg (by omega)]
  obtain ⟨hIval, hImem, hIne⟩ := natDigits_spec (n.toNat / 10 ^ f)
  obtain ⟨c, cs, hcons⟩ := List.exists_cons_of_ne_nil hIne
  obtain ⟨d, hd, hcd⟩ := hImem c (by rw [hcons]; simp)
  have hfd : fixedDigits n.toNat f
      = c :: (cs ++ '.' :: fracDigits f (n.toNat % 10 ^ f)) := by
    simp [fixedDigits, hf, hcons]
  have hws : isJsWs c = false := by rw [hcd]; exact (digitChar_facts hd).2.2.1
  have hminus : c ≠ '-' := by rw [hcd]; exact (digitChar_facts hd).2.2.2.1
  have hplus : c ≠ '+' := by rw [hcd]; exact (digitChar_facts hd).2.2.2.2.1
  rw [jsParseFloat]
  rw [show (String.mk (fixedDigits n.toNat f)).data = fixedDigits n.toNat f from rfl]
  rw [hfd]
  rw [show List.dropWhile isJsWs (c :: (cs ++ '.' :: fracDigits f (n.toNat % 10 ^ f)))
        = c :: (cs ++ '.' :: fracDigits f (n.toNat % 10 ^ f)) by
      simp [List.dropWhile_cons, hws]]
  rw [parseSigned]
  simp only [if_neg hminus, if_neg hplus]
  rw [← hfd, parseUnsigned_fixedDigits n.toNat f hf]
  have hcast : ((n.toNat : ℕ) : ℚ) = (n : ℚ) := by
    exact_mod_cast Int.toNat_of_nonneg hn
  rw [hcast]

/-- Characterization of the numeric-format regular expression: a character
list matches `^\d*\.?\d*$` exactly when every character is a digit or a
point and at most one point occurs. -/
theorem matchNumRegex_iff (l : List Char) :
    matchNumRegex l = true ↔
      (∀ c ∈ l, c.isDigit = true ∨ c = '.') ∧ l.count '.' ≤ 1 := by
  induction l with
  | nil => simp [matchNumRegex]
  | cons c cs ih =>
    by_cases hd : c.isDigit = true
    · have hne : c ≠ '.' := by
        intro h
        rw [h] at hd
        exact absurd hd (by decide)
      rw [show matchNumRegex (c :: cs) = matchNumRegex cs by simp [matchNumRegex, hd]]
      rw [ih]
      constructor
      · rintro ⟨h1, h2⟩
        refine ⟨?_, ?_⟩
        · intro x hx
          rcases List.mem_cons.mp hx with rfl | hx
          · exact Or.inl hd
          · exact h1 x hx
        · simpa [List.count_cons, hne] using h2
      · rintro ⟨h1, h2⟩
        refine ⟨fun x hx => h1 x (List.mem_cons_of_mem c hx), ?_⟩
        simpa [List.count_cons, hne] using h2
    · by_cases hdot : c = '.'
      · subst hdot
        rw [show matchNumRegex ('.' :: cs) = cs.all Char.isDigit by
          simp [matchNumRegex]]
        constructor
        · intro hall
          have hall2 := List.all_eq_true.mp hall
          refine ⟨?_, ?_⟩
          · intro x hx
            rcases List.mem_cons.mp hx with rfl | hx
            · exact Or.inr rfl
            · exact Or.inl (hall2 x hx)
          · have hzero : cs.count '.' = 0 := by
              rw [List.count_eq_zero]
              intro hmem
              exact absurd (hall2 _ hmem) (by decide)
            simp [List.count_cons, hzero]
        · rintro ⟨h1, h2⟩
          have hcount : cs.count '.' = 0 := by
            simp [List.count_cons] at h2
            omega
          rw [List.all_eq_true]
          intro x hx
          rcases h1 x (List.mem_cons_of_mem _ hx) with h | h
          · exact h
          · rw [List.count_eq_zero] at hcount
            exact absurd (h ▸ hx) hcount
      · rw [show matchNumRegex (c :: cs) = false by simp [matchNumRegex, hd, hdot]]
        refine iff_of_false (by simp) ?_
        rintro ⟨h1, _⟩
        rcases h1 c (by simp) with h | h
        · exact hd h
        · exact hdot h

/-- Core arithmetic of the round trip: rounding a 4-decimal ETH amount to the
2-decimal USDT amount at rate 2184.33 and back with the inverse rate recovers
the scaled integer exactly, because the relative rounding error stays below
half an ETH precision unit. -/
theorem roundTrip_core (k : ℤ) :
    ⌊((⌊(k : ℚ) * 218433 / 10000 + 1 / 2⌋ : ℤ) : ℚ) * 10000 / 218433 + 1 / 2⌋ = k := by
  have h1 : ((⌊(k : ℚ) * 218433 / 10000 + 1 / 2⌋ : ℤ) : ℚ)
      ≤ (k : ℚ) * 218433 / 10000 + 1 / 2 := Int.floor_le _
  have h2 : (k : ℚ) * 218433 / 10000 + 1 / 2 - 1
      < ((⌊(k : ℚ) * 218433 / 10000 + 1 / 2⌋ : ℤ) : ℚ) := Int.sub_one_lt_floor _
  rw [Int.floor_eq_iff]
  refine ⟨by linarith, by linarith⟩

theorem renderFixedInt_ne_empty (n : ℤ) (f : ℕ) : renderFixedInt n f ≠ "" := by
  rw [renderFixedInt]
  split
  · exact string_mk_ne_empty _ _
  · obtain ⟨hIval, hImem, hIne⟩ := natDigits_spec (n.toNat / 10 ^ f)
    by_cases hf : f = 0
    · subst hf
      obtain ⟨hv, hm, hne⟩ := natDigits_spec n.toNat
      obtain ⟨c, cs, hcons⟩ := List.exists_cons_of_ne_nil hne
      rw [show fixedDigits n.toNat 0 = natDigits n.toNat from rfl, hcons]
      exact string_mk_ne_empty _ _
    · obtain ⟨c, cs, hcons⟩ := List.exists_cons_of_ne_nil hIne
      rw [show fixedDigits n.toNat f
            = natDigits (n.toNat / 10 ^ f) ++ '.' :: fracDigits f (n.toNat % 10 ^ f) by
          simp [fixedDigits, hf]]
      rw [hcons]
      exact string_mk_ne_empty _ _

/-! ## Claims -/

/-- C5: the format validator accepts a string exactly when it is empty or
consists of digits with at most one decimal point; everything else is
rejected and surfaces the numbers-only error through `validateAmount`. -/
theorem c5_numeric_format (s : String) :
    (isNumericInput s = true ↔
      s = "" ∨ ((∀ c ∈ s.data, c.isDigit = true ∨ c = '.') ∧ s.data.count '.' ≤ 1)) ∧
    (isNumericInput s = false → ∀ c : CurrencyKey, validateAmount s c = NUMBERS_ONLY) := by
  constructor
  · by_cases hs : s = ""
    · simp [isNumericInput, hs]
    · rw [isNumericInput, if_neg hs, matchNumRegex_iff]
      tauto
  · intro h c
    rw [validateAmount, if_pos]
    rw [h]
    simp

/-- C5 witness: "12a.b" is rejected with the numbers-only error, while "1.5"
is accepted. -/
theorem c5_numeric_format_witness :
    validateAmount "12a.b" ETH = NUMBERS_ONLY ∧ isNumericInput "1.5" = true := by
  constructor
  · exact (c5_numeric_format "12a.b").2 (by decide) ETH
  · exact ((c5_numeric_format "1.5").1).mpr (by decide)

/-- C6: the balance validator accepts the empty string; a non-empty amount is
accepted exactly when it parses to a value that is positive and at most the
currency's balance; and a rejected well-formed amount surfaces the
insufficiency error naming the currency. -/
theorem c6_balance_validator (a : String) (c : CurrencyKey) :
    isWithinBalance "" (CURRENCIES c).balance = true ∧
    (a ≠ "" →
      (isWithinBalance a (CURRENCIES c).balance = true ↔
        ∃ q, jsParseFloat a = some q ∧ 0 < q ∧ q ≤ (CURRENCIES c).balance)) ∧
    (isNumericInput a = true → a ≠ "" →
      isWithinBalance a (CURRENCIES c).balance = false →
      validateAmount a c = if c = ETH then INSUFFICIENT_ETH else INSUFFICIENT_USDT) := by
  refine ⟨rfl, ?_, ?_⟩
  · intro ha
    rw [isWithinBalance, if_neg ha]
    cases hp : jsParseFloat a with
    | none => simp
    | some q =>
      simp only [Option.some.injEq, decide_eq_true_eq]
      constructor
      · intro hq
        exact ⟨q, rfl, hq.2, hq.1⟩
      · rintro ⟨q2, hq2, h0, hle⟩
        cases hq2
        exact ⟨hle, h0⟩
  · intro hnum ha hbal
    rw [validateAmount, if_neg (by simp [hnum]), if_pos ⟨ha, by simp [hbal]⟩]

/-- C6 witness: "5000" exceeds the ETH balance 2.98 and yields the
ETH-specific insufficiency error; "1.5" USDT is within balance. -/
theorem c6_balance_validator_witness :
    validateAmount "5000" ETH = INSUFFICIENT_ETH ∧
    isWithinBalance "1.5" (CURRENCIES USDT).balance = true := by
  constructor
  · have h := (c6_balance_validator "5000" ETH).2.2 (by decide) (by decide)
      (by with_unfolding_all decide)
    simpa using h
  · exact ((c6_balance_validator "1.5" USDT).2.1 (by decide)).mpr
      ⟨3 / 2, by with_unfolding_all decide, by norm_num, by norm_num [CURRENCIES]⟩

/-- C9: the estimated transaction time equals `(10 + 0.05 * value)` scaled by
the pseudo-random factor `0.7 + 0.6 * u`, rounded to the nearest whole minute
and clamped to the interval `[5, 30]`; for a random sample in `[0, 1]` the
factor lies in `[0.7, 1.3]`, and the result is always a whole number of
minutes between 5 and 30 inclusive. -/
theorem c9_transaction_minutes (value u : ℚ) (h0 : 0 ≤ u) (h1 : u ≤ 1) :
    calculateTransactionMinutes value u
      = max 5 (min 30 (jsRound ((10 + 0.05 * value) * (0.7 + 0.6 * u)))) ∧
    (0.7 : ℚ) ≤ 0.7 + 0.6 * u ∧ (0.7 + 0.6 * u : ℚ) ≤ 1.3 ∧
    5 ≤ calculateTransactionMinutes value u ∧
    calculateTransactionMinutes value u ≤ 30 := by
  refine ⟨?_, by nlinarith, by nlinarith, ?_, ?_⟩
  · rw [calculateTransactionMinutes]
    rw [mul_comm value 0.05, mul_comm u 0.6]
  · rw [calculateTransactionMinutes]
    omega
  · rw [calculateTransactionMinutes]
    omega

/-- C9 witness: value 100 with sample 1/2 gives factor 1 and exactly 15
minutes, inside the clamp interval. -/
theorem c9_transaction_minutes_witness :
    calculateTransactionMinutes 100 (1 / 2)
      = max 5 (min 30 (jsRound ((10 + 0.05 * 100) * (0.7 + 0.6 * (1 / 2))))) ∧
    (0.7 : ℚ) ≤ 0.7 + 0.6 * (1 / 2) ∧ (0.7 + 0.6 * (1 / 2) : ℚ) ≤ 1.3 ∧
    5 ≤ calculateTransactionMinutes 100 (1 / 2) ∧
    calculateTransactionMinutes 100 (1 / 2) ≤ 30 :=
  c9_transaction_minutes 100 (1 / 2) (by norm_num) (by norm_num)

/-- C3: swap is a no-op when either field holds the numbers-only format
error, and otherwise exchanges the amount/currency pairs, re-validates the new
send amount, clears the receive error, and recomputes the estimated time. -/
theorem c3_swap_semantics (st : ExchangeState) (u : ℚ) :
    ((st.sendError = NUMBERS_ONLY ∨ st.receiveError = NUMBERS_ONLY) →
      handleSwap u st = st) ∧
    (st.sendError ≠ NUMBERS_ONLY → st.receiveError ≠ NUMBERS_ONLY →
      handleSwap u st =
        { st with
          sendAmount := st.receiveAmount
          receiveAmount := st.sendAmount
          sendCurrency := st.receiveCurrency
          receiveCurrency := st.sendCurrency
          sendError := validateAmount st.receiveAmount st.receiveCurrency
          receiveError := ""
          transactionMinutes :=
            updateTxMinutes st.receiveAmount st.sendAmount
              st.sendCurrency st.receiveCurrency u }) := by
  constructor
  · intro h
    rw [handleSwap, if_pos h]
  · intro h1 h2
    rw [handleSwap, if_neg (by tauto)]

/-- C3 witness: swapping the initial state (no error present) exchanges the
two sides and recomputes the derived fields. -/
theorem c3_swap_semantics_witness :
    handleSwap 0 initState =
      { initState with
        sendAmount := initState.receiveAmount
        receiveAmount := initState.sendAmount
        sendCurrency := initState.receiveCurrency
        receiveCurrency := initState.sendCurrency
        sendError := validateAmount initState.receiveAmount initState.receiveCurrency
        receiveError := ""
        transactionMinutes :=
          updateTxMinutes initState.receiveAmount initState.sendAmount
            initState.sendCurrency initState.receiveCurrency 0 } :=
  (c3_swap_semantics initState 0).2 (by decide) (by decide)

/-- C7: an edit whose comma-stripped raw value fails the format check records
the numbers-only error on the edited field and leaves both stored amounts
unchanged. -/
theorem c7_format_error_keeps_amounts (st : ExchangeState) (input : String) (u : ℚ)
    (h : isNumericInput (stripCommas input) = false) :
    (handleSendAmountChange input u st).sendAmount = st.sendAmount ∧
    (handleSendAmountChange input u st).receiveAmount = st.receiveAmount ∧
    (handleSendAmountChange input u st).sendError = NUMBERS_ONLY ∧
    (handleReceiveAmountChange input u st).sendAmount = st.sendAmount ∧
    (handleReceiveAmountChange input u st).receiveAmount = st.receiveAmount ∧
    (handleReceiveAmountChange input u st).receiveError = NUMBERS_ONLY := by
  have herr : validateAmount (stripCommas input) st.sendCurrency = NUMBERS_ONLY := by
    rw [validateAmount, if_pos (by simp [h])]
  refine ⟨?_, ?_, ?_, ?_, ?_, ?_⟩ <;>
    simp [handleSendAmountChange, handleReceiveAmountChange, herr, h]

/-- C7 witness: the input "abc" leaves the initial amounts untouched and sets
the numbers-only error on the edited field. -/
theorem c7_format_error_keeps_amounts_witness :
    (handleSendAmountChange "abc" 0 initState).sendAmount = initState.sendAmount ∧
    (handleSendAmountChange "abc" 0 initState).receiveAmount = initState.receiveAmount ∧
    (handleSendAmountChange "abc" 0 initState).sendError = NUMBERS_ONLY ∧
    (handleReceiveAmountChange "abc" 0 initState).sendAmount = initState.sendAmount ∧
    (handleReceiveAmountChange "abc" 0 initState).receiveAmount = initState.receiveAmount ∧
    (handleReceiveAmountChange "abc" 0 initState).receiveError = NUMBERS_ONLY :=
  c7_format_error_keeps_amounts initState "abc" 0 (by decide)

theorem sendCurrency_handleSend (input : String) (u : ℚ) (st : ExchangeState) :
    (handleSendAmountChange input u st).sendCurrency = st.sendCurrency := by
  simp only [handleSendAmountChange]
  split <;> rfl

theorem receiveCurrency_handleSend (input : String) (u : ℚ) (st : ExchangeState) :
    (handleSendAmountChange input u st).receiveCurrency = st.receiveCurrency := by
  simp only [handleSendAmountChange]
  split <;> rfl

theorem sendCurrency_handleReceive (input : String) (u : ℚ) (st : ExchangeState) :
    (handleReceiveAmountChange input u st).sendCurrency = st.sendCurrency := by
  simp only [handleReceiveAmountChange]
  split
  · rfl
  · split <;> rfl

theorem receiveCurrency_handleReceive (input : String) (u : ℚ) (st : ExchangeState) :
    (handleReceiveAmountChange input u st).receiveCurrency = st.receiveCurrency := by
  simp only [handleReceiveAmountChange]
  split
  · rfl
  · split <;> rfl

/-- C10: in every state reachable from the initial one by edits, swaps,
confirmations and resets, the two sides carry distinct currencies and
together are exactly the pair ETH/USDT. -/
theorem c10_currency_invariant (st : ExchangeState) (h : Reachable st) :
    (st.sendCurrency = ETH ∧ st.receiveCurrency = USDT) ∨
    (st.sendCurrency = USDT ∧ st.receiveCurrency = ETH) := by
  induction h with
  | init => exact Or.inl ⟨rfl, rfl⟩
  | step hr hs ih =>
    cases hs with
    | editSend input u =>
      simp only [sendCurrency_handleSend, receiveCurrency_handleSend]
      exact ih
    | editReceive input u =>
      simp only [sendCurrency_handleReceive, receiveCurrency_handleReceive]
      exact ih
    | swap u =>
      rw [handleSwap]
      split
      · exact ih
      · rcases ih with ⟨ha, hb⟩ | ⟨ha, hb⟩
        · exact Or.inr ⟨by simp [hb], by simp [ha]⟩
        · exact Or.inl ⟨by simp [hb], by simp [ha]⟩
    | confirmStart => simpa [handleConfirm] using ih
    | confirmFinish => simpa [confirmResolve] using ih
    | reset => simpa [handleReset] using ih

/-- C10 witness: the invariant holds at the initial state. -/
theorem c10_currency_invariant_witness :
    (initState.sendCurrency = ETH ∧ initState.receiveCurrency = USDT) ∨
    (initState.sendCurrency = USDT ∧ initState.receiveCurrency = ETH) :=
  c10_currency_invariant initState Reachable.init

/-- C4: in every reachable state the confirm control is enabled exactly when
neither field carries an error and no confirmation is in flight; in
particular an insufficiency error on the send side keeps it disabled. -/
theorem c4_confirm_enabled (st : ExchangeState) (_reach : Reachable st) :
    (confirmEnabled st = true ↔
      st.sendError = "" ∧ st.receiveError = "" ∧ st.isLoading = false) ∧
    (∀ c : CurrencyKey,
      st.sendError = (if c = ETH then INSUFFICIENT_ETH else INSUFFICIENT_USDT) →
      confirmEnabled st = false) := by
  constructor
  · rw [confirmEnabled]
    cases hl : st.isLoading <;>
      simp [String.isEmpty_iff, hl]
  · intro c hc
    rw [confirmEnabled]
    have hne : st.sendError ≠ "" := by
      rw [hc]
      cases c <;> decide
    simp [String.isEmpty_iff, hne]

theorem sendErrorCount_handleSend (input : String) (u : ℚ) (st : ExchangeState) :
    (handleSendAmountChange input u st).sendErrorCount =
      if validateAmount (stripCommas input) st.sendCurrency ≠ "" ∧
         validateAmount (stripCommas input) st.sendCurrency = st.prevSendError
      then st.sendErrorCount + 1 else 0 := by
  simp only [handleSendAmountChange]
  split <;> rfl

theorem shakeSend_handleSend (input : String) (u : ℚ) (st : ExchangeState) :
    (handleSendAmountChange input u st).shakeSendError =
      if (validateAmount (stripCommas input) st.sendCurrency ≠ "" ∧
          validateAmount (stripCommas input) st.sendCurrency = st.prevSendError) ∧
         2 ≤ st.sendErrorCount
      then true else st.shakeSendError := by
  simp only [handleSendAmountChange]
  split <;> rfl

/-- C8: for each edit the repeat counter increments exactly when the edit's
validation result is the same non-empty error as the field's previous result
and resets to zero on success or on a different error; the shake flag is
raised exactly on an edit whose error repeats the previous one with the
counter already at two, i.e. the first shake comes after three consecutive
identical errors (on the fourth), as the concrete trace shows. -/
theorem c8_error_counter_shake :
    (∀ (st : ExchangeState) (input : String) (u : ℚ),
      (handleSendAmountChange input u st).sendErrorCount =
        (if validateAmount (stripCommas input) st.sendCurrency ≠ "" ∧
            validateAmount (stripCommas input) st.sendCurrency = st.prevSendError
         then st.sendErrorCount + 1 else 0) ∧
      (st.shakeSendError = false →
        ((handleSendAmountChange input u st).shakeSendError = true ↔
          (validateAmount (stripCommas input) st.sendCurrency ≠ "" ∧
           validateAmount (stripCommas input) st.sendCurrency = st.prevSendError) ∧
          2 ≤ st.sendErrorCount)) ∧
      (isNumericInput (stripCommas input) = false →
        (handleReceiveAmountChange input u st).receiveErrorCount =
          (if NUMBERS_ONLY = st.prevReceiveError then st.receiveErrorCount + 1 else 0)) ∧
      (isNumericInput (stripCommas input) = true →
        (handleReceiveAmountChange input u st).receiveErrorCount = 0)) ∧
    ((handleSendAmountChange "!" 0 initState).sendErrorCount = 0 ∧
     (handleSendAmountChange "!" 0 (handleSendAmountChange "!" 0
        initState)).sendErrorCount = 1 ∧
     (handleSendAmountChange "!" 0 (handleSendAmountChange "!" 0
        (handleSendAmountChange "!" 0 initState))).sendErrorCount = 2 ∧
     (handleSendAmountChange "!" 0 initState).shakeSendError = false ∧
     (handleSendAmountChange "!" 0 (handleSendAmountChange "!" 0
        initState)).shakeSendError = false ∧
     (handleSendAmountChange "!" 0 (handleSendAmountChange "!" 0
        (handleSendAmountChange "!" 0 initState))).shakeSendError = false ∧
     (handleSendAmountChange "!" 0 (handleSendAmountChange "!" 0
        (handleSendAmountChange "!" 0 (handleSendAmountChange "!" 0
          initState)))).shakeSendError = true) := by
  constructor
  · intro st input u
    refine ⟨sendErrorCount_handleSend input u st, ?_, ?_, ?_⟩
    · intro hoff
      rw [shakeSend_handleSend, hoff]
      split
      · next hcond => simpa using hcond
      · next hcond => simpa using hcond
    · intro hbad
      rw [handleReceiveAmountChange]
      rw [if_pos (by simp [hbad])]
    · intro hgood
      rw [handleReceiveAmountChange]
      rw [if_neg (by simp [hgood])]
      split <;> rfl
  · exact ⟨by decide, by decide, by decide, by decide, by decide, by decide, by decide⟩

/-- C8 witness: on the fourth consecutive identical invalid edit the shake
condition holds and the flag is raised. -/
theorem c8_error_counter_shake_witness :
    (handleSendAmountChange "!" 0 (handleSendAmountChange "!" 0
      (handleSendAmountChange "!" 0 (handleSendAmountChange "!" 0
        initState)))).shakeSendError = true := by
  have h := (c8_error_counter_shake.1
    (handleSendAmountChange "!" 0 (handleSendAmountChange "!" 0
      (handleSendAmountChange "!" 0 initState))) "!" 0).2.1 (by decide)
  exact h.mpr (by decide)

/-- C4 witness: the initial state is reachable, has no errors, no pending
confirmation, and an enabled confirm control. -/
theorem c4_confirm_enabled_witness :
    (confirmEnabled initState = true ↔
      initState.sendError = "" ∧ initState.receiveError = "" ∧
      initState.isLoading = false) ∧
    (∀ c : CurrencyKey,
      initState.sendError = (if c = ETH then INSUFFICIENT_ETH else INSUFFICIENT_USDT) →
      confirmEnabled initState = false) :=
  c4_confirm_enabled initState Reachable.init

/-- C1 counterexample: at input "1.999" (ETH to USDT) the converter returns
"4366.48" — `toFixed` rounds to the nearest hundredth — whereas truncating
the exact product 4366.47567 to two decimals would give "4366.47". -/
theorem c1_truncating_counterexample :
    calculateExchangeAmount "1.999" ETH USDT = "4366.48" ∧
    jsParseFloat "1.999" = some (1999 / 1000 : ℚ) ∧
    specTruncFixed ((1999 / 1000 : ℚ) * RATES_ETH_TO_USDT) (CURRENCIES USDT).precision
      = "4366.47" ∧
    ("4366.48" : String) ≠ "4366.47" := by
  set_option maxRecDepth 4000 in
  refine ⟨?_, ?_, ?_, by decide⟩ <;> with_unfolding_all decide

/-- C1 (amended): the converter returns the empty string on empty input,
the empty string on input that does not parse as a number, and otherwise the
parsed amount times the direction's rate formatted by rounding (JavaScript
`toFixed`) to the target asset's precision; in particular "2.00" ETH to USDT
gives "4368.66" and "1000" USDT to ETH gives "0.4578". -/
theorem c1_amount_converter (s : String) :
    (s = "" → calculateExchangeAmount s ETH USDT = "" ∧
              calculateExchangeAmount s USDT ETH = "") ∧
    (jsParseFloat s = none → calculateExchangeAmount s ETH USDT = "" ∧
                             calculateExchangeAmount s USDT ETH = "") ∧
    (∀ q : ℚ, jsParseFloat s = some q →
      calculateExchangeAmount s ETH USDT
        = jsToFixed (q * RATES_ETH_TO_USDT) (CURRENCIES USDT).precision ∧
      calculateExchangeAmount s USDT ETH
        = jsToFixed (q * RATES_USDT_TO_ETH) (CURRENCIES ETH).precision) ∧
    calculateExchangeAmount "2.00" ETH USDT = "4368.66" ∧
    calculateExchangeAmount "1000" USDT ETH = "0.4578" := by
  refine ⟨?_, ?_, ?_, by with_unfolding_all decide, by with_unfolding_all decide⟩
  · intro hs
    subst hs
    exact ⟨rfl, rfl⟩
  · intro hp
    by_cases hs : s = ""
    · subst hs
      exact ⟨rfl, rfl⟩
    · refine ⟨?_, ?_⟩ <;> rw [calculateExchangeAmount, if_neg hs, hp]
  · intro q hq
    have hs : s ≠ "" := by
      intro h
      subst h
      exact Option.noConfusion hq
    refine ⟨?_, ?_⟩ <;> rw [calculateExchangeAmount, if_neg hs, hq] <;> simp [CURRENCIES]

/-- C1 witness: "2.00" parses to 2 and the converter agrees with the rounded
formatting of 2 times the rate in both directions. -/
theorem c1_amount_converter_witness :
    calculateExchangeAmount "2.00" ETH USDT
      = jsToFixed ((2 : ℚ) * RATES_ETH_TO_USDT) (CURRENCIES USDT).precision ∧
    calculateExchangeAmount "2.00" USDT ETH
      = jsToFixed ((2 : ℚ) * RATES_USDT_TO_ETH) (CURRENCIES ETH).precision :=
  ((c1_amount_converter "2.00").2.2.1 2 (by with_unfolding_all decide))

/-- C2: a valid numeric send amount representable at the ETH precision of
four decimals converts to USDT with the forward rate and back with the
inverse rate to exactly its original value (so in particular within the
target precision's rounding tolerance). -/
theorem c2_round_trip (s : String) (k : ℤ) (hk : 0 ≤ k)
    (hnum : isNumericInput s = true)
    (hp : jsParseFloat s = some ((k : ℚ) / 10 ^ 4)) :
    jsParseFloat (calculateExchangeAmount (calculateExchangeAmount s ETH USDT) USDT ETH)
      = some ((k : ℚ) / 10 ^ 4) := by
  have hrate : (2184.33 : ℚ) = 218433 / 100 := by norm_num
  have hs : s ≠ "" := by
    intro h
    subst h
    exact Option.noConfusion hp
  have h1 : calculateExchangeAmount s ETH USDT
      = renderFixedInt (Rat.floor ((k : ℚ) / 10 ^ 4 * RATES_ETH_TO_USDT * 10 ^ 2 + 1 / 2)) 2 := by
    rw [calculateExchangeAmount, if_neg hs, hp]
    simp [jsToFixed, CURRENCIES]
  have hm2 : Rat.floor ((k : ℚ) / 10 ^ 4 * RATES_ETH_TO_USDT * 10 ^ 2 + 1 / 2)
      = ⌊(k : ℚ) * 218433 / 10000 + 1 / 2⌋ := by
    rw [ratFloor_eq]
    congr 1
    rw [RATES_ETH_TO_USDT, hrate]
    ring
  have hmpos : 0 ≤ Rat.floor ((k : ℚ) / 10 ^ 4 * RATES_ETH_TO_USDT * 10 ^ 2 + 1 / 2) := by
    rw [hm2]
    have hkq : (0 : ℚ) ≤ (k : ℚ) := by exact_mod_cast hk
    apply Int.floor_nonneg.mpr
    nlinarith
  have hne : calculateExchangeAmount s ETH USDT ≠ "" := by
    rw [h1]
    exact renderFixedInt_ne_empty _ _
  have hp2 : jsParseFloat (calculateExchangeAmount s ETH USDT)
      = some ((Rat.floor ((k : ℚ) / 10 ^ 4 * RATES_ETH_TO_USDT * 10 ^ 2 + 1 / 2) : ℚ) / 10 ^ 2) := by
    rw [h1]
    exact jsParseFloat_renderFixedInt _ 2 hmpos (by norm_num)
  have h3 : calculateExchangeAmount (calculateExchangeAmount s ETH USDT) USDT ETH
      = renderFixedInt
          (Rat.floor ((Rat.floor ((k : ℚ) / 10 ^ 4 * RATES_ETH_TO_USDT * 10 ^ 2 + 1 / 2) : ℚ)
            / 10 ^ 2 * RATES_USDT_TO_ETH * 10 ^ 4 + 1 / 2)) 4 := by
    rw [calculateExchangeAmount, if_neg hne, hp2]
    simp [jsToFixed, CURRENCIES]
  have h4 : Rat.floor ((Rat.floor ((k : ℚ) / 10 ^ 4 * RATES_ETH_TO_USDT * 10 ^ 2 + 1 / 2) : ℚ)
      / 10 ^ 2 * RATES_USDT_TO_ETH * 10 ^ 4 + 1 / 2) = k := by
    rw [ratFloor_eq, hm2]
    rw [show ((⌊(k : ℚ) * 218433 / 10000 + 1 / 2⌋ : ℤ) : ℚ) / 10 ^ 2
          * RATES_USDT_TO_ETH * 10 ^ 4 + 1 / 2
        = ((⌊(k : ℚ) * 218433 / 10000 + 1 / 2⌋ : ℤ) : ℚ) * 10000 / 218433 + 1 / 2 by
      rw [RATES_USDT_TO_ETH, hrate]
      ring]
    exact roundTrip_core k
  rw [h3, h4]
  exact jsParseFloat_renderFixedInt k 4 hk (by norm_num)

/-- C2 witness: the amount "2.00" (the value 20000 times 10^-4) survives the
ETH to USDT to ETH round trip exactly. -/
theorem c2_round_trip_witness :
    jsParseFloat (calculateExchangeAmount (calculateExchangeAmount "2.00" ETH USDT) USDT ETH)
      = some (((20000 : ℤ) : ℚ) / 10 ^ 4) :=
  c2_round_trip "2.00" 20000 (by norm_num) (by decide)
    (by with_unfolding_all decide)

end CryptoExchange
